import Mathlib

/- Verification of the libtegra SPI PIO driver (src/spi/mod.rs) and of the
   fixed time base register model (src/timer/timerus.rs).

   The driver is embedded shallowly as a state machine over a record of the
   memory-mapped registers it touches, together with an oracle supplying the
   values that hardware-owned status bits have at each volatile read, and a
   trace of the volatile operations performed, in order.  Busy-wait loops
   consume the oracle; an exhausted oracle (the hardware never responds)
   yields none, modelling an unbounded block. -/

deriving instance DecidableEq for Except

namespace Spi

/-- Fields of the SPI_COMMAND_0 register that the driver manipulates:
chip-select software/hardware control, chip-select value, chip-select line,
packed mode, bit length, transmit enable, receive enable, PIO trigger. -/
structure Command where
  cs_sw_hw : Bool
  cs_sw_val : Bool
  cs_sel : Nat
  packed : Bool
  bit_len : Nat
  tx_en : Bool
  rx_en : Bool
  pio : Bool
deriving Repr, DecidableEq

/-- Fields of the SPI_FIFO_STATUS_0 register that the driver manipulates:
the composite error flag, the four overflow/underflow flags, and the two
FIFO flush trigger bits. -/
structure FifoStatus where
  err : Bool
  tx_fifo_ovf : Bool
  tx_fifo_unr : Bool
  rx_fifo_ovf : Bool
  rx_fifo_unr : Bool
  rx_fifo_flush : Bool
  tx_fifo_flush : Bool
deriving Repr, DecidableEq

/-- The register block of one SPI controller, as observed by the driver:
the command register, the RDY bit of SPI_TRANSFER_STATUS_0, the FIFO status
register, the DMA block size register, and the contents of the two hardware
FIFOs (the TX FIFO receives the words written to SPI_TX_FIFO_0; reads of
SPI_RX_FIFO_0 pop words from the RX FIFO). -/
structure Registers where
  command : Command
  transfer_status_rdy : Bool
  fifo_status : FifoStatus
  dma_blk_size : Nat
  tx_fifo : List Nat
  rx_fifo : List Nat
deriving Repr, DecidableEq

/-- Hardware responses for the volatile reads of hardware-owned status:
successive results of reading the RDY bit inside wait_until_ready, and
successive results of reading SPI_FIFO_STATUS_0 (in the flush poll loop and
in the final error check). -/
structure Oracle where
  rdy : List Bool
  fifo : List FifoStatus
deriving Repr, DecidableEq

/-- One volatile register operation performed by the driver, in program
order. -/
inductive Event where
  | write_command (c : Command)
  | read_command (c : Command)
  | write_transfer_status (rdy : Bool)
  | read_rdy (b : Bool)
  | write_fifo_status (f : FifoStatus)
  | read_fifo_status (f : FifoStatus)
  | write_dma_blk_size (n : Nat)
  | write_tx_fifo (w : Nat)
  | read_rx_fifo (w : Nat)
  | usleep (n : Nat)
deriving Repr, DecidableEq

/-- The driver-visible machine: current register contents, the pending
hardware responses, and the trace of operations performed so far. -/
structure Machine where
  regs : Registers
  oracle : Oracle
  trace : List Event
deriving Repr, DecidableEq

/-- Volatile write of SPI_COMMAND_0 with the value produced by a modify. -/
def write_command (m : Machine) (c : Command) : Machine :=
  { m with regs := { m.regs with command := c },
           trace := m.trace ++ [Event.write_command c] }

/-- Volatile (dummy) read of SPI_COMMAND_0. -/
def read_command (m : Machine) : Machine :=
  { m with trace := m.trace ++ [Event.read_command m.regs.command] }

/-- Volatile write of the RDY bit of SPI_TRANSFER_STATUS_0. -/
def write_transfer_status (m : Machine) (b : Bool) : Machine :=
  { m with regs := { m.regs with transfer_status_rdy := b },
           trace := m.trace ++ [Event.write_transfer_status b] }

/-- Volatile write of SPI_DMA_BLK_SIZE_0. -/
def write_dma_blk_size (m : Machine) (n : Nat) : Machine :=
  { m with regs := { m.regs with dma_blk_size := n },
           trace := m.trace ++ [Event.write_dma_blk_size n] }

/-- Volatile write of one word to the SPI_TX_FIFO_0 data port; the hardware
FIFO receives the word. -/
def write_tx_fifo (m : Machine) (w : Nat) : Machine :=
  { m with regs := { m.regs with tx_fifo := m.regs.tx_fifo ++ [w] },
           trace := m.trace ++ [Event.write_tx_fifo w] }

/-- Volatile write of SPI_FIFO_STATUS_0 with the value produced by a
modify. -/
def write_fifo_status (m : Machine) (f : FifoStatus) : Machine :=
  { m with regs := { m.regs with fifo_status := f },
           trace := m.trace ++ [Event.write_fifo_status f] }

/-- Volatile read of SPI_FIFO_STATUS_0: the observed value is supplied by
the hardware oracle and becomes the current register value. -/
def read_fifo_status (m : Machine) : Option (FifoStatus × Machine) :=
  match m.oracle.fifo with
  | [] => none
  | f :: rest =>
    some (f, { m with regs := { m.regs with fifo_status := f },
                      oracle := { m.oracle with fifo := rest },
                      trace := m.trace ++ [Event.read_fifo_status f] })

/-- Volatile read of the SPI_RX_FIFO_0 data port: pops one word from the
hardware RX FIFO (an empty FIFO reads as zero). -/
def read_rx_fifo (m : Machine) : Nat × Machine :=
  match m.regs.rx_fifo with
  | [] => (0, { m with trace := m.trace ++ [Event.read_rx_fifo 0] })
  | w :: rest =>
    (w, { m with regs := { m.regs with rx_fifo := rest },
                 trace := m.trace ++ [Event.read_rx_fifo w] })

/-- The external microsecond delay primitive: records the delay in the
trace. -/
def usleep (m : Machine) (n : Nat) : Machine :=
  { m with trace := m.trace ++ [Event.usleep n] }

/-- The polling loop of wait_until_ready: one volatile read of the RDY bit
per iteration, looping until a read returns true.  Returns the read events
and the remaining oracle; none when the oracle is exhausted (the loop would
spin forever). -/
def pollRdy : List Bool → List Event × Option (List Bool)
  | [] => ([], none)
  | b :: rest =>
    if b then ([Event.read_rdy b], some rest)
    else
      let p := pollRdy rest
      (Event.read_rdy b :: p.1, p.2)

/-- Rust: Spi::wait_until_ready (src/spi/mod.rs lines 26-32).  Spins while
the RDY bit of SPI_TRANSFER_STATUS_0 reads clear. -/
def wait_until_ready (m : Machine) : Option Machine :=
  match pollRdy m.oracle.rdy with
  | (evs, some rest) =>
    some { m with regs := { m.regs with transfer_status_rdy := true },
                  oracle := { m.oracle with rdy := rest },
                  trace := m.trace ++ evs }
  | (_, none) => none

/-- The polling loop of flush_fifos: the loop condition reads
SPI_FIFO_STATUS_0 once for RX_FIFO_FLUSH and, only when that bit is set,
reads it again for TX_FIFO_FLUSH (short-circuit conjunction); the loop
continues while both reads returned a set bit.  Returns the read events,
the last observed status and the remaining oracle; none when the oracle is
exhausted. -/
def pollFlush : List FifoStatus → List Event × Option (FifoStatus × List FifoStatus)
  | [] => ([], none)
  | [f1] =>
    if f1.rx_fifo_flush then ([Event.read_fifo_status f1], none)
    else ([Event.read_fifo_status f1], some (f1, []))
  | f1 :: f2 :: rest =>
    if f1.rx_fifo_flush then
      if f2.tx_fifo_flush then
        let p := pollFlush rest
        (Event.read_fifo_status f1 :: Event.read_fifo_status f2 :: p.1, p.2)
      else ([Event.read_fifo_status f1, Event.read_fifo_status f2], some (f2, rest))
    else ([Event.read_fifo_status f1], some (f1, f2 :: rest))

/-- Rust: Spi::clear_fifo_status (src/spi/mod.rs lines 37-48).  One
read-modify-write of SPI_FIFO_STATUS_0 clearing ERR, TX_FIFO_OVF,
TX_FIFO_UNR, RX_FIFO_OVF and RX_FIFO_UNR together. -/
def clear_fifo_status (m : Machine) : Machine :=
  write_fifo_status m
    { m.regs.fifo_status with
      err := false, tx_fifo_ovf := false, tx_fifo_unr := false,
      rx_fifo_ovf := false, rx_fifo_unr := false }

/-- Rust: Spi::flush_fifos (src/spi/mod.rs lines 201-217).  Waits until the
controller is ready, sets both FIFO flush trigger bits in one
read-modify-write, then runs the poll loop. -/
def flush_fifos (m : Machine) : Option Machine := do
  let m ← wait_until_ready m
  let m := write_fifo_status m
    { m.regs.fifo_status with rx_fifo_flush := true, tx_fifo_flush := true }
  match pollFlush m.oracle.fifo with
  | (evs, some (f, rest)) =>
    some { m with regs := { m.regs with fifo_status := f },
                  oracle := { m.oracle with fifo := rest },
                  trace := m.trace ++ evs }
  | (_, none) => none

/-- Rust: u32::from_le_bytes on a 4-byte buffer. -/
def u32_from_le_bytes (b0 b1 b2 b3 : Nat) : Nat :=
  b0 + b1 * 2 ^ 8 + b2 * 2 ^ 16 + b3 * 2 ^ 24

/-- Rust: Spi::pio_send_packet (src/spi/mod.rs lines 56-106).  The buffer
is a list of byte values.  The data.length - 1 block size write uses
truncated Nat subtraction, which agrees with Rust for every non-empty
buffer (an empty buffer would make the Rust arithmetic overflow and abort).
The try_into().unwrap() on the buffer aborts unless the length is exactly
4; the abort is modelled as none. -/
def pio_send_packet (m : Machine) (data : List Nat) :
    Option (Except Unit Unit × Machine) := do
  -- Flush the FIFOs.
  let m ← flush_fifos m
  -- Set 8-bit transfers, unpacked mode, most significant bit first.
  let m := write_command m { m.regs.command with packed := false, bit_len := 7 }
  -- Set the size of data blocks to be transferred.
  let m := write_dma_blk_size m (data.length - 1)
  -- Clear SPI_TRANSFER_STATUS RDY bit.
  let m := write_transfer_status m false
  -- Set the transmit enable bit.
  let m := write_command m { m.regs.command with tx_en := true }
  -- Load in the data to write (try_into().unwrap() aborts unless length 4).
  match data with
  | [b0, b1, b2, b3] =>
    let m := write_tx_fifo m (u32_from_le_bytes b0 b1 b2 b3)
    -- Make sure that the register is stabilized before setting the PIO bit.
    let m := usleep m 2
    -- Set the PIO bit to start transaction.
    let m := write_command m { m.regs.command with pio := true }
    -- Delay for a few CPU cycles to process the data.
    let m := usleep m 1
    -- Dummy read.
    let m := read_command m
    -- Wait for the transaction to complete.
    let m ← wait_until_ready m
    -- Clear the transmit enable bit.
    let m := write_command m { m.regs.command with tx_en := false }
    -- Check for errors.
    let (f, m) ← read_fifo_status m
    if f.err then
      let m := clear_fifo_status m
      some (Except.error (), m)
    else
      some (Except.ok (), m)
  | _ => none

/-- The drain loop of pio_receive_packet: one volatile read of the
SPI_RX_FIFO_0 data port per output byte, truncating each word to its low
byte. -/
def drain : Nat → Machine → List Nat × Machine
  | 0, m => ([], m)
  | n + 1, m =>
    let p := read_rx_fifo m
    let q := drain n p.2
    (p.1 % 2 ^ 8 :: q.1, q.2)

/-- Rust: Spi::pio_receive_packet (src/spi/mod.rs lines 114-165).  Takes
the caller's buffer (a list of byte values) and returns the resulting
buffer contents alongside the result: on the error path the buffer is
returned as passed in, on the success path it is overwritten byte by byte
by the drain loop. -/
def pio_receive_packet (m : Machine) (data : List Nat) :
    Option (Except Unit Unit × List Nat × Machine) := do
  -- Flush the FIFOs.
  let m ← flush_fifos m
  -- Set 8-bit transfers, unpacked mode, most significant bit first.
  let m := write_command m { m.regs.command with packed := false, bit_len := 7 }
  -- Set the size of data blocks to be transferred.
  let m := write_dma_blk_size m (data.length - 1)
  -- Clear SPI_TRANSFER_STATUS RDY bit.
  let m := write_transfer_status m false
  -- Set the receive enable bit.
  let m := write_command m { m.regs.command with rx_en := true }
  -- Make sure that the register is stabilized before setting the PIO bit.
  let m := usleep m 2
  -- Set the PIO bit to start transaction.
  let m := write_command m { m.regs.command with pio := true }
  -- Delay for a few CPU cycles to process the data.
  let m := usleep m 1
  -- Dummy read.
  let m := read_command m
  -- Wait for the transaction to complete.
  let m ← wait_until_ready m
  -- Clear the receive enable bit.
  let m := write_command m { m.regs.command with rx_en := false }
  -- Check for errors.
  let (f, m) ← read_fifo_status m
  if f.err then
    let m := clear_fifo_status m
    some (Except.error (), data, m)
  else
    -- Read the data bytes into the buffer.
    let p := drain data.length m
    some (Except.ok (), p.1, p.2)

/-- Rust: Spi::init (src/spi/mod.rs lines 174-195).  First command write:
chip-select under software control, chip-select value high, unpacked
8-bit transfers; then a FIFO flush; then a second command write selecting
chip-select line 0 and driving the chip-select value low. -/
def init (m : Machine) : Option Machine := do
  -- Set chip-select value to high, 8-bit transfers,
  -- unpacked mode and most significant bit first.
  let m := write_command m
    { m.regs.command with
      cs_sw_hw := true, cs_sw_val := true, packed := false, bit_len := 7 }
  -- Flush the FIFOs.
  let m ← flush_fifos m
  -- Enforce chip-select line 0 for now and drive chip-select low.
  let m := write_command m
    { m.regs.command with cs_sel := 0, cs_sw_val := false }
  some m

/-- Error conditions of the public send operation. -/
inductive SpiError where
  | invalid_argument
  | transfer
deriving Repr, DecidableEq

/-- Modelled from the spec: the public send wrapper around pio_send_packet
is not under src/ (pio_send_packet is a private method whose documentation
delegates buffer validation to its caller).  Per the spec, send called with
a buffer whose length is not exactly 4 bytes fails fast with a distinct
invalid-argument condition before attempting a partial pack or any register
write; otherwise the transaction is delegated to pio_send_packet and a
hardware-reported failure is surfaced as a transfer error. -/
def send (m : Machine) (data : List Nat) :
    Option (Except SpiError Unit × Machine) :=
  if data.length ≠ 4 then some (Except.error SpiError.invalid_argument, m)
  else do
    let (r, m) ← pio_send_packet m data
    match r with
    | Except.ok () => some (Except.ok (), m)
    | Except.error () => some (Except.error SpiError.transfer, m)

/-- A FIFO status value with every flag clear. -/
def status_none : FifoStatus :=
  ⟨false, false, false, false, false, false, false⟩

/-- A FIFO status value with only the composite error flag possibly set. -/
def status_err (e : Bool) : FifoStatus :=
  { status_none with err := e }

/-- A concrete quiescent register block used for concrete runs. -/
def regs0 : Registers :=
  ⟨⟨false, false, 0, false, 0, false, false, false⟩, false, status_none, 0, [], []⟩

end Spi

namespace Timerus

/- Embedding of src/timer/timerus.rs: the Fixed Time Base register block is
   purely descriptive, so it is modelled as its bit-field layout data (bit
   offsets, widths, encoded values and register byte offsets) together with
   the field read/write arithmetic of the register access layer. -/

/-- A bit field of a 32-bit register: bit offset and width, as declared by
register_bitfields. -/
structure Field where
  offset : Nat
  numbits : Nat
deriving Repr, DecidableEq

/-- Reading a bit field from a register value: shift right by the offset
and keep the low width bits. -/
def Field.get (f : Field) (w : Nat) : Nat :=
  w / 2 ^ f.offset % 2 ^ f.numbits

/-- Writing a bit field of a register value: the bits above the field and
below the field are preserved, the field bits are replaced by the low width
bits of the new value. -/
def Field.put (f : Field) (w v : Nat) : Nat :=
  w / 2 ^ (f.offset + f.numbits) * 2 ^ (f.offset + f.numbits)
    + v % 2 ^ f.numbits * 2 ^ f.offset
    + w % 2 ^ f.offset

/-- TIMERUS_CNTR_1US_0: elapsed microseconds, high half. -/
def HIGH_VALUE : Field := ⟨16, 16⟩

/-- TIMERUS_CNTR_1US_0: elapsed microseconds, low half. -/
def LOW_VALUE : Field := ⟨0, 16⟩

/-- TIMERUS_USEC_CFG_0: microsecond dividend field. -/
def USEC_DIVIDEND : Field := ⟨8, 8⟩

/-- TIMERUS_USEC_CFG_0: microsecond divisor field. -/
def USEC_DIVISOR : Field := ⟨0, 8⟩

/-- Encoded dividend for a 12 MHz clk_m frequency. -/
def USEC_DIVIDEND_ClkMFreq12 : Nat := 0x00

/-- Encoded dividend for a 38.4 MHz clk_m frequency. -/
def USEC_DIVIDEND_ClkMFreq384 : Nat := 0x04

/-- Encoded divisor for a 12 MHz clk_m frequency. -/
def USEC_DIVISOR_ClkMFreq12 : Nat := 0x0B

/-- Encoded divisor for a 38.4 MHz clk_m frequency. -/
def USEC_DIVISOR_ClkMFreq384 : Nat := 0xBF

/-- TIMERUS_CNTR_FREEZE_0: freeze while COP is in debug state. -/
def DBG_FREEZE_COP : Field := ⟨4, 1⟩

/-- TIMERUS_CNTR_FREEZE_0: freeze while CPU3 is in debug state. -/
def DBG_FREEZE_CPU3 : Field := ⟨3, 1⟩

/-- TIMERUS_CNTR_FREEZE_0: freeze while CPU2 is in debug state. -/
def DBG_FREEZE_CPU2 : Field := ⟨2, 1⟩

/-- TIMERUS_CNTR_FREEZE_0: freeze while CPU1 is in debug state. -/
def DBG_FREEZE_CPU1 : Field := ⟨1, 1⟩

/-- TIMERUS_CNTR_FREEZE_0: freeze while CPU0 is in debug state. -/
def DBG_FREEZE_CPU0 : Field := ⟨0, 1⟩

/-- Encoded value of a freeze field requesting no freeze. -/
def NoFreeze : Nat := 0

/-- Encoded value of a freeze field requesting a freeze. -/
def Freeze : Nat := 1

/-- Base address of the Fixed Time Base registers. -/
def TIMER_BASE : Nat := 0x60005000

/-- Address of the register block (TIMER_BASE + 0x10). -/
def REGISTERS_ADDR : Nat := TIMER_BASE + 0x10

/-- Byte offset of TIMERUS_CNTR_1US_0 in the register block. -/
def OFFSET_TIMERUS_CNTR_1US_0 : Nat := 0x00

/-- Byte offset of TIMERUS_USEC_CFG_0 in the register block. -/
def OFFSET_TIMERUS_USEC_CFG_0 : Nat := 0x04

/-- Byte offset of the reserved span in the register block. -/
def OFFSET_RESERVED : Nat := 0x08

/-- Number of reserved 32-bit words between the configuration register and
the freeze register. -/
def RESERVED_WORDS : Nat := 0xD

/-- Byte offset of TIMERUS_CNTR_FREEZE_0 in the register block. -/
def OFFSET_TIMERUS_CNTR_FREEZE_0 : Nat := 0x3C

/-- Total byte size of the register block. -/
def REGISTERS_END : Nat := 0x40

end Timerus

/-- C8: the Time Base register model is bit-exact: the elapsed-microsecond
counter occupies a full 32-bit word at offset 0x00 (high half at bit offset
16, low half at bit offset 0, 16 bits each); the divider configuration word
at offset 0x04 has an 8-bit dividend field at bit offset 8 and an 8-bit
divisor field at bit offset 0, with encoded pairs (0x00, 0x0B) for 12 MHz
and (0x04, 0xBF) for 38.4 MHz; and the freeze word at offset 0x3C has five
independent 1-bit freeze fields at bit offsets 0 through 4 (CPU0 to CPU3
and COP), each encoding 0 = no freeze, 1 = freeze. -/
theorem timerus_register_layout_bit_exact :
    (Timerus.OFFSET_TIMERUS_CNTR_1US_0 = 0x00 ∧
      Timerus.HIGH_VALUE = ⟨16, 16⟩ ∧ Timerus.LOW_VALUE = ⟨0, 16⟩) ∧
    (∀ w : Nat,
      Timerus.Field.get Timerus.HIGH_VALUE w * 2 ^ 16 +
        Timerus.Field.get Timerus.LOW_VALUE w = w % 2 ^ 32) ∧
    (Timerus.OFFSET_TIMERUS_USEC_CFG_0 = 0x04 ∧
      Timerus.USEC_DIVIDEND = ⟨8, 8⟩ ∧ Timerus.USEC_DIVISOR = ⟨0, 8⟩ ∧
      Timerus.USEC_DIVIDEND_ClkMFreq12 = 0x00 ∧
      Timerus.USEC_DIVISOR_ClkMFreq12 = 0x0B ∧
      Timerus.USEC_DIVIDEND_ClkMFreq384 = 0x04 ∧
      Timerus.USEC_DIVISOR_ClkMFreq384 = 0xBF) ∧
    (∀ w : Nat,
      Timerus.Field.get Timerus.USEC_DIVIDEND w = w / 2 ^ 8 % 2 ^ 8 ∧
      Timerus.Field.get Timerus.USEC_DIVISOR w = w % 2 ^ 8) ∧
    (Timerus.OFFSET_TIMERUS_CNTR_FREEZE_0 = 0x3C ∧
      Timerus.OFFSET_RESERVED + Timerus.RESERVED_WORDS * 4 =
        Timerus.OFFSET_TIMERUS_CNTR_FREEZE_0 ∧
      Timerus.REGISTERS_END = 0x40 ∧
      Timerus.DBG_FREEZE_CPU0 = ⟨0, 1⟩ ∧ Timerus.DBG_FREEZE_CPU1 = ⟨1, 1⟩ ∧
      Timerus.DBG_FREEZE_CPU2 = ⟨2, 1⟩ ∧ Timerus.DBG_FREEZE_CPU3 = ⟨3, 1⟩ ∧
      Timerus.DBG_FREEZE_COP = ⟨4, 1⟩ ∧
      Timerus.NoFreeze = 0 ∧ Timerus.Freeze = 1) ∧
    (∀ w v : Nat,
      Timerus.Field.get Timerus.DBG_FREEZE_CPU1
        (Timerus.Field.put Timerus.DBG_FREEZE_CPU0 w v) =
        Timerus.Field.get Timerus.DBG_FREEZE_CPU1 w ∧
      Timerus.Field.get Timerus.DBG_FREEZE_CPU2
        (Timerus.Field.put Timerus.DBG_FREEZE_CPU0 w v) =
        Timerus.Field.get Timerus.DBG_FREEZE_CPU2 w ∧
      Timerus.Field.get Timerus.DBG_FREEZE_CPU3
        (Timerus.Field.put Timerus.DBG_FREEZE_CPU0 w v) =
        Timerus.Field.get Timerus.DBG_FREEZE_CPU3 w ∧
      Timerus.Field.get Timerus.DBG_FREEZE_COP
        (Timerus.Field.put Timerus.DBG_FREEZE_CPU0 w v) =
        Timerus.Field.get Timerus.DBG_FREEZE_COP w ∧
      Timerus.Field.get Timerus.DBG_FREEZE_CPU0
        (Timerus.Field.put Timerus.DBG_FREEZE_CPU1 w v) =
        Timerus.Field.get Timerus.DBG_FREEZE_CPU0 w ∧
      Timerus.Field.get Timerus.DBG_FREEZE_CPU2
        (Timerus.Field.put Timerus.DBG_FREEZE_CPU1 w v) =
        Timerus.Field.get Timerus.DBG_FREEZE_CPU2 w ∧
      Timerus.Field.get Timerus.DBG_FREEZE_CPU3
        (Timerus.Field.put Timerus.DBG_FREEZE_CPU1 w v) =
        Timerus.Field.get Timerus.DBG_FREEZE_CPU3 w ∧
      Timerus.Field.get Timerus.DBG_FREEZE_COP
        (Timerus.Field.put Timerus.DBG_FREEZE_CPU1 w v) =
        Timerus.Field.get Timerus.DBG_FREEZE_COP w ∧
      Timerus.Field.get Timerus.DBG_FREEZE_CPU0
        (Timerus.Field.put Timerus.DBG_FREEZE_CPU2 w v) =
        Timerus.Field.get Timerus.DBG_FREEZE_CPU0 w ∧
      Timerus.Field.get Timerus.DBG_FREEZE_CPU1
        (Timerus.Field.put Timerus.DBG_FREEZE_CPU2 w v) =
        Timerus.Field.get Timerus.DBG_FREEZE_CPU1 w ∧
      Timerus.Field.get Timerus.DBG_FREEZE_CPU3
        (Timerus.Field.put Timerus.DBG_FREEZE_CPU2 w v) =
        Timerus.Field.get Timerus.DBG_FREEZE_CPU3 w ∧
      Timerus.Field.get Timerus.DBG_FREEZE_COP
        (Timerus.Field.put Timerus.DBG_FREEZE_CPU2 w v) =
        Timerus.Field.get Timerus.DBG_FREEZE_COP w ∧
      Timerus.Field.get Timerus.DBG_FREEZE_CPU0
        (Timerus.Field.put Timerus.DBG_FREEZE_CPU3 w v) =
        Timerus.Field.get Timerus.DBG_FREEZE_CPU0 w ∧
      Timerus.Field.get Timerus.DBG_FREEZE_CPU1
        (Timerus.Field.put Timerus.DBG_FREEZE_CPU3 w v) =
        Timerus.Field.get Timerus.DBG_FREEZE_CPU1 w ∧
      Timerus.Field.get Timerus.DBG_FREEZE_CPU2
        (Timerus.Field.put Timerus.DBG_FREEZE_CPU3 w v) =
        Timerus.Field.get Timerus.DBG_FREEZE_CPU2 w ∧
      Timerus.Field.get Timerus.DBG_FREEZE_COP
        (Timerus.Field.put Timerus.DBG_FREEZE_CPU3 w v) =
        Timerus.Field.get Timerus.DBG_FREEZE_COP w ∧
      Timerus.Field.get Timerus.DBG_FREEZE_CPU0
        (Timerus.Field.put Timerus.DBG_FREEZE_COP w v) =
        Timerus.Field.get Timerus.DBG_FREEZE_CPU0 w ∧
      Timerus.Field.get Timerus.DBG_FREEZE_CPU1
        (Timerus.Field.put Timerus.DBG_FREEZE_COP w v) =
        Timerus.Field.get Timerus.DBG_FREEZE_CPU1 w ∧
      Timerus.Field.get Timerus.DBG_FREEZE_CPU2
        (Timerus.Field.put Timerus.DBG_FREEZE_COP w v) =
        Timerus.Field.get Timerus.DBG_FREEZE_CPU2 w ∧
      Timerus.Field.get Timerus.DBG_FREEZE_CPU3
        (Timerus.Field.put Timerus.DBG_FREEZE_COP w v) =
        Timerus.Field.get Timerus.DBG_FREEZE_CPU3 w) := by
  refine ⟨by decide, ?_, by decide, ?_, by decide, ?_⟩
  · intro w
    show w / 2 ^ 16 % 2 ^ 16 * 2 ^ 16 + w / 2 ^ 0 % 2 ^ 16 = w % 2 ^ 32
    omega
  · intro w
    refine ⟨rfl, ?_⟩
    show w / 2 ^ 0 % 2 ^ 8 = w % 2 ^ 8
    omega
  · intro w v
    simp [Timerus.Field.get, Timerus.Field.put, Timerus.DBG_FREEZE_CPU0,
      Timerus.DBG_FREEZE_CPU1, Timerus.DBG_FREEZE_CPU2, Timerus.DBG_FREEZE_CPU3,
      Timerus.DBG_FREEZE_COP]
    omega

open Spi

/-- C2: evaluation of flush_fifos at the failing hardware trace.  The claim
says flush_fifos returns only after both flush trigger bits have
deasserted, with both bits reading clear on return.  The loop condition is
a short-circuit conjunction of the two bits, so the loop exits as soon as
either bit reads clear: on a hardware trace whose first status read after
the flush write has RX_FIFO_FLUSH clear but TX_FIFO_FLUSH still set, the
call returns with the TX flush trigger bit still set. -/
theorem spi_flush_fifos_exits_with_tx_flush_set :
    Option.map (fun m => m.regs.fifo_status.tx_fifo_flush)
      (flush_fifos
        ⟨regs0, ⟨[true], [⟨false, false, false, false, false, false, true⟩]⟩, []⟩) =
      some true := by
  decide

/-- C3: for every buffer whose length is not exactly 4 bytes, send fails
fast with the distinct invalid-argument error, leaving the machine (its
registers and its trace of volatile operations) completely untouched: no
partial pack and no register write of the transaction happens. -/
theorem spi_send_rejects_non_four_byte_buffers :
    ∀ (m : Machine) (data : List Nat), data.length ≠ 4 →
      send m data = some (Except.error SpiError.invalid_argument, m) := by
  intro m data h
  simp [send, h]

/-- Witness for C3 at a concrete 3-byte buffer. -/
theorem spi_send_rejects_non_four_byte_buffers_witness :
    send ⟨regs0, ⟨[], []⟩, []⟩ [1, 2, 3] =
      some (Except.error SpiError.invalid_argument, ⟨regs0, ⟨[], []⟩, []⟩) :=
  spi_send_rejects_non_four_byte_buffers ⟨regs0, ⟨[], []⟩, []⟩ [1, 2, 3] (by decide)

/-- Unfolding of the ready poll loop on a hardware response list made of k
not-ready reads followed by a ready read. -/
theorem pollRdy_replicate (k : Nat) (rest : List Bool) :
    pollRdy (List.replicate k false ++ true :: rest) =
      (List.replicate k (Event.read_rdy false) ++ [Event.read_rdy true], some rest) := by
  induction k with
  | zero => simp [pollRdy]
  | succ n ih => simp [pollRdy, List.replicate_succ, ih]

/-- C7: init performs, in order: a command-register write that sets
software-driven chip-select with the chip-select value held high
(deasserted) and unpacked 8-bit mode; then a flush of both FIFOs; then a
command-register write that selects chip-select line 0 and drives the
chip-select value low while software control remains set.  The run is
quantified over the initial register contents and the number of not-ready
polls the flush has to wait through; init produces no error value. -/
theorem spi_init_sequence :
    ∀ (regs : Registers) (k : Nat),
      Option.map (fun m => (m.regs.command, m.trace))
        (init ⟨regs, ⟨List.replicate k false ++ [true], [status_none]⟩, []⟩) =
      some
        ({ regs.command with
            cs_sw_hw := true, cs_sw_val := false, cs_sel := 0,
            packed := false, bit_len := 7 },
          Event.write_command
            { regs.command with
              cs_sw_hw := true, cs_sw_val := true, packed := false, bit_len := 7 } ::
          (List.replicate k (Event.read_rdy false) ++
            Event.read_rdy true ::
            Event.write_fifo_status
              { regs.fifo_status with rx_fifo_flush := true, tx_fifo_flush := true } ::
            Event.read_fifo_status status_none ::
            [Event.write_command
              { regs.command with
                cs_sw_hw := true, cs_sw_val := false, cs_sel := 0,
                packed := false, bit_len := 7 }])) := by
  intro regs k
  simp [init, flush_fifos, wait_until_ready, write_command, write_fifo_status,
    pollRdy_replicate, pollFlush, status_none]

/-- C1: for every 4-byte buffer, pio_send_packet performs exactly, in this
order: flush both FIFOs (ready wait, one write setting both flush trigger
bits, poll); set unpacked 8-bit mode (PACKED clear, BIT_LEN 7); write
length minus one (3) to the block-size register; clear the ready flag; set
transmit enable; write the 4 bytes as a single little-endian 32-bit word to
the transmit FIFO port; delay exactly 2 microseconds; set the PIO trigger
bit; delay exactly 1 microsecond; one discarded read of the command
register; poll the ready flag until set; clear transmit enable; then one
read of the error flag, and if it is set a single write clearing the error
bits and a failure result, otherwise a success result.  Quantified over the
initial registers, the 4 bytes, the lengths of the two ready polls and the
final error flag. -/
theorem spi_send_packet_protocol_order :
    ∀ (regs : Registers) (b0 b1 b2 b3 k1 k2 : Nat) (e : Bool),
      Option.map (fun p => (p.1, p.2.trace))
        (pio_send_packet
          ⟨regs,
            ⟨List.replicate k1 false ++ true ::
              (List.replicate k2 false ++ [true]),
              [status_none, status_err e]⟩, []⟩
          [b0, b1, b2, b3]) =
      some
        (if e then Except.error () else Except.ok (),
          List.replicate k1 (Event.read_rdy false) ++
          Event.read_rdy true ::
          Event.write_fifo_status
            { regs.fifo_status with rx_fifo_flush := true, tx_fifo_flush := true } ::
          Event.read_fifo_status status_none ::
          Event.write_command
            { regs.command with packed := false, bit_len := 7 } ::
          Event.write_dma_blk_size 3 ::
          Event.write_transfer_status false ::
          Event.write_command
            { regs.command with packed := false, bit_len := 7, tx_en := true } ::
          Event.write_tx_fifo (u32_from_le_bytes b0 b1 b2 b3) ::
          Event.usleep 2 ::
          Event.write_command
            { regs.command with
              packed := false, bit_len := 7, tx_en := true, pio := true } ::
          Event.usleep 1 ::
          Event.read_command
            { regs.command with
              packed := false, bit_len := 7, tx_en := true, pio := true } ::
          (List.replicate k2 (Event.read_rdy false) ++
            Event.read_rdy true ::
            Event.write_command
              { regs.command with
                packed := false, bit_len := 7, tx_en := false, pio := true } ::
            Event.read_fifo_status (status_err e) ::
            (if e then [Event.write_fifo_status status_none] else []))) := by
  intro regs b0 b1 b2 b3 k1 k2 e
  cases e <;>
    simp [pio_send_packet, flush_fifos, wait_until_ready, write_command,
      write_fifo_status, write_dma_blk_size, write_transfer_status,
      write_tx_fifo, usleep, read_command, read_fifo_status, clear_fifo_status,
      pollRdy_replicate, pollFlush, status_none, status_err]

/-- Unfolding of the drain loop: reading n words from a hardware RX FIFO
holding at least n words pops the first n words, records one read event per
word, and yields their low bytes in order. -/
theorem drain_spec :
    ∀ (n : Nat) (m : Machine), n ≤ m.regs.rx_fifo.length →
      drain n m =
        ((m.regs.rx_fifo.take n).map (fun w => w % 2 ^ 8),
          { m with
            regs := { m.regs with rx_fifo := m.regs.rx_fifo.drop n },
            trace := m.trace ++ (m.regs.rx_fifo.take n).map Event.read_rx_fifo }) := by
  intro n
  induction n with
  | zero => intro m h; simp [drain]
  | succ k ih =>
    intro m h
    cases hw : m.regs.rx_fifo with
    | nil => rw [hw] at h; simp at h
    | cons w rest =>
      have h1 : k ≤ rest.length := by rw [hw] at h; simpa using h
      have hrec := ih
        { m with
          regs := { m.regs with rx_fifo := rest },
          trace := m.trace ++ [Event.read_rx_fifo w] } (by simpa using h1)
      simp [drain, read_rx_fifo, hw, hrec]

/-- C5: for every buffer of length L with 1 <= L <= the number of words the
RX FIFO holds, a successful receive issues exactly L reads of the receive
FIFO data port, after the ready wait and the error check, truncates each
word to its low byte and returns those bytes in order as the buffer
contents.  Quantified over the initial registers (whose rx_fifo field is
the primed hardware FIFO), the caller's buffer and the poll lengths. -/
theorem spi_receive_drains_fifo_in_order :
    ∀ (regs : Registers) (data : List Nat) (k1 k2 : Nat),
      1 ≤ data.length → data.length ≤ regs.rx_fifo.length →
      Option.map (fun p => (p.1, p.2.1, p.2.2.trace))
        (pio_receive_packet
          ⟨regs,
            ⟨List.replicate k1 false ++ true ::
              (List.replicate k2 false ++ [true]),
              [status_none, status_none]⟩, []⟩ data) =
      some
        (Except.ok (),
          (regs.rx_fifo.take data.length).map (fun w => w % 2 ^ 8),
          List.replicate k1 (Event.read_rdy false) ++
          Event.read_rdy true ::
          Event.write_fifo_status
            { regs.fifo_status with rx_fifo_flush := true, tx_fifo_flush := true } ::
          Event.read_fifo_status status_none ::
          Event.write_command
            { regs.command with packed := false, bit_len := 7 } ::
          Event.write_dma_blk_size (data.length - 1) ::
          Event.write_transfer_status false ::
          Event.write_command
            { regs.command with packed := false, bit_len := 7, rx_en := true } ::
          Event.usleep 2 ::
          Event.write_command
            { regs.command with
              packed := false, bit_len := 7, rx_en := true, pio := true } ::
          Event.usleep 1 ::
          Event.read_command
            { regs.command with
              packed := false, bit_len := 7, rx_en := true, pio := true } ::
          (List.replicate k2 (Event.read_rdy false) ++
            Event.read_rdy true ::
            Event.write_command
              { regs.command with
                packed := false, bit_len := 7, rx_en := false, pio := true } ::
            Event.read_fifo_status status_none ::
            (regs.rx_fifo.take data.length).map Event.read_rx_fifo)) := by
  intro regs data k1 k2 hL hle
  simp [pio_receive_packet, flush_fifos, wait_until_ready, write_command,
    write_fifo_status, write_dma_blk_size, write_transfer_status, usleep,
    read_command, read_fifo_status, pollRdy_replicate, pollFlush, status_none,
    drain_spec, hle]

/-- C9: receive is atomic with respect to the caller's buffer on failure:
when the error flag is observed set after the ready wait, the call returns
the error, performs no read of the receive FIFO data port (the trace, given
in full, contains no such read), and returns the caller's buffer exactly as
it was passed in. -/
theorem spi_receive_error_leaves_buffer_untouched :
    ∀ (regs : Registers) (data : List Nat) (k1 k2 : Nat) (f : FifoStatus),
      1 ≤ data.length → f.err = true →
      Option.map (fun p => (p.1, p.2.1, p.2.2.trace))
        (pio_receive_packet
          ⟨regs,
            ⟨List.replicate k1 false ++ true ::
              (List.replicate k2 false ++ [true]),
              [status_none, f]⟩, []⟩ data) =
      some
        (Except.error (),
          data,
          List.replicate k1 (Event.read_rdy false) ++
          Event.read_rdy true ::
          Event.write_fifo_status
            { regs.fifo_status with rx_fifo_flush := true, tx_fifo_flush := true } ::
          Event.read_fifo_status status_none ::
          Event.write_command
            { regs.command with packed := false, bit_len := 7 } ::
          Event.write_dma_blk_size (data.length - 1) ::
          Event.write_transfer_status false ::
          Event.write_command
            { regs.command with packed := false, bit_len := 7, rx_en := true } ::
          Event.usleep 2 ::
          Event.write_command
            { regs.command with
              packed := false, bit_len := 7, rx_en := true, pio := true } ::
          Event.usleep 1 ::
          Event.read_command
            { regs.command with
              packed := false, bit_len := 7, rx_en := true, pio := true } ::
          (List.replicate k2 (Event.read_rdy false) ++
            Event.read_rdy true ::
            Event.write_command
              { regs.command with
                packed := false, bit_len := 7, rx_en := false, pio := true } ::
            Event.read_fifo_status f ::
            [Event.write_fifo_status
              { f with
                err := false, tx_fifo_ovf := false, tx_fifo_unr := false,
                rx_fifo_ovf := false, rx_fifo_unr := false }])) := by
  intro regs data k1 k2 f hL hf
  simp [pio_receive_packet, flush_fifos, wait_until_ready, write_command,
    write_fifo_status, write_dma_blk_size, write_transfer_status, usleep,
    read_command, read_fifo_status, clear_fifo_status, pollRdy_replicate,
    pollFlush, status_none, hf]

/-- C4: for send and for receive, when the FIFO status error flag is
observed set after the ready flag was seen, the call returns the transfer
error and the resulting register state has the generic error flag and all
four overflow/underflow flags clear, cleared together in one single write
(visible as the unique final write event of the trace, which also ends the
transaction: no retry), and the transfer enable bit (transmit enable for
send, receive enable for receive) is clear. -/
theorem spi_error_path_clears_status_and_enable :
    ∀ (regs : Registers) (b0 b1 b2 b3 : Nat) (data : List Nat)
      (k1 k2 k3 k4 : Nat) (f g : FifoStatus),
      f.err = true → g.err = true →
      (Option.map
          (fun p => (p.1, p.2.regs.command.tx_en, p.2.regs.fifo_status, p.2.trace))
          (pio_send_packet
            ⟨regs,
              ⟨List.replicate k1 false ++ true ::
                (List.replicate k2 false ++ [true]),
                [status_none, f]⟩, []⟩ [b0, b1, b2, b3]) =
        some
          (Except.error (), false,
            { f with
              err := false, tx_fifo_ovf := false, tx_fifo_unr := false,
              rx_fifo_ovf := false, rx_fifo_unr := false },
            List.replicate k1 (Event.read_rdy false) ++
            Event.read_rdy true ::
            Event.write_fifo_status
              { regs.fifo_status with rx_fifo_flush := true, tx_fifo_flush := true } ::
            Event.read_fifo_status status_none ::
            Event.write_command
              { regs.command with packed := false, bit_len := 7 } ::
            Event.write_dma_blk_size 3 ::
            Event.write_transfer_status false ::
            Event.write_command
              { regs.command with packed := false, bit_len := 7, tx_en := true } ::
            Event.write_tx_fifo (u32_from_le_bytes b0 b1 b2 b3) ::
            Event.usleep 2 ::
            Event.write_command
              { regs.command with
                packed := false, bit_len := 7, tx_en := true, pio := true } ::
            Event.usleep 1 ::
            Event.read_command
              { regs.command with
                packed := false, bit_len := 7, tx_en := true, pio := true } ::
            (List.replicate k2 (Event.read_rdy false) ++
              Event.read_rdy true ::
              Event.write_command
                { regs.command with
                  packed := false, bit_len := 7, tx_en := false, pio := true } ::
              Event.read_fifo_status f ::
              [Event.write_fifo_status
                { f with
                  err := false, tx_fifo_ovf := false, tx_fifo_unr := false,
                  rx_fifo_ovf := false, rx_fifo_unr := false }]))) ∧
      (Option.map
          (fun p =>
            (p.1, p.2.1, p.2.2.regs.command.rx_en, p.2.2.regs.fifo_status,
              p.2.2.trace))
          (pio_receive_packet
            ⟨regs,
              ⟨List.replicate k3 false ++ true ::
                (List.replicate k4 false ++ [true]),
                [status_none, g]⟩, []⟩ data) =
        some
          (Except.error (), data, false,
            { g with
              err := false, tx_fifo_ovf := false, tx_fifo_unr := false,
              rx_fifo_ovf := false, rx_fifo_unr := false },
            List.replicate k3 (Event.read_rdy false) ++
            Event.read_rdy true ::
            Event.write_fifo_status
              { regs.fifo_status with rx_fifo_flush := true, tx_fifo_flush := true } ::
            Event.read_fifo_status status_none ::
            Event.write_command
              { regs.command with packed := false, bit_len := 7 } ::
            Event.write_dma_blk_size (data.length - 1) ::
            Event.write_transfer_status false ::
            Event.write_command
              { regs.command with packed := false, bit_len := 7, rx_en := true } ::
            Event.usleep 2 ::
            Event.write_command
              { regs.command with
                packed := false, bit_len := 7, rx_en := true, pio := true } ::
            Event.usleep 1 ::
            Event.read_command
              { regs.command with
                packed := false, bit_len := 7, rx_en := true, pio := true } ::
            (List.replicate k4 (Event.read_rdy false) ++
              Event.read_rdy true ::
              Event.write_command
                { regs.command with
                  packed := false, bit_len := 7, rx_en := false, pio := true } ::
              Event.read_fifo_status g ::
              [Event.write_fifo_status
                { g with
                  err := false, tx_fifo_ovf := false, tx_fifo_unr := false,
                  rx_fifo_ovf := false, rx_fifo_unr := false }]))) := by
  intro regs b0 b1 b2 b3 data k1 k2 k3 k4 f g hf hg
  constructor
  · simp [pio_send_packet, flush_fifos, wait_until_ready, write_command,
      write_fifo_status, write_dma_blk_size, write_transfer_status,
      write_tx_fifo, usleep, read_command, read_fifo_status, clear_fifo_status,
      pollRdy_replicate, pollFlush, status_none, hf]
  · simp [pio_receive_packet, flush_fifos, wait_until_ready, write_command,
      write_fifo_status, write_dma_blk_size, write_transfer_status, usleep,
      read_command, read_fifo_status, clear_fifo_status, pollRdy_replicate,
      pollFlush, status_none, hg]

/-- C6: the little-endian packing of send and the per-byte low-byte
unpacking of receive are a true inverse pair: for every 4-byte buffer, a
send writes the single word u32_from_le_bytes of the buffer into the TX
FIFO, and a receive of 4 bytes against a register block whose RX FIFO is
primed with that word decomposed into its bytes in little-endian order
returns exactly the original buffer, in order. -/
theorem spi_le_pack_unpack_roundtrip :
    ∀ b0 b1 b2 b3 : Nat, b0 < 256 → b1 < 256 → b2 < 256 → b3 < 256 →
      Option.map (fun p => (p.1, p.2.regs.tx_fifo))
        (pio_send_packet ⟨regs0, ⟨[true, true], [status_none, status_none]⟩, []⟩
          [b0, b1, b2, b3]) =
        some (Except.ok (), [u32_from_le_bytes b0 b1 b2 b3]) ∧
      Option.map (fun p => (p.1, p.2.1))
        (pio_receive_packet
          ⟨{ regs0 with
              rx_fifo := [u32_from_le_bytes b0 b1 b2 b3 % 2 ^ 8,
                u32_from_le_bytes b0 b1 b2 b3 / 2 ^ 8 % 2 ^ 8,
                u32_from_le_bytes b0 b1 b2 b3 / 2 ^ 16 % 2 ^ 8,
                u32_from_le_bytes b0 b1 b2 b3 / 2 ^ 24 % 2 ^ 8] },
            ⟨[true, true], [status_none, status_none]⟩, []⟩
          [0, 0, 0, 0]) =
        some (Except.ok (), [b0, b1, b2, b3]) := by
  intro b0 b1 b2 b3 h0 h1 h2 h3
  constructor
  · simp [pio_send_packet, flush_fifos, wait_until_ready, write_command,
      write_fifo_status, write_dma_blk_size, write_transfer_status,
      write_tx_fifo, usleep, read_command, read_fifo_status, pollRdy,
      pollFlush, status_none, regs0]
  · simp [pio_receive_packet, flush_fifos, wait_until_ready,
      write_command, write_fifo_status, write_dma_blk_size,
      write_transfer_status, usleep, read_command, read_fifo_status, pollRdy,
      pollFlush, status_none, regs0, drain, read_rx_fifo, u32_from_le_bytes]
    omega

/-- Every event produced by the ready poll loop is a read of the RDY
bit. -/
theorem pollRdy_mem : ∀ (l : List Bool) (e : Event),
    e ∈ (pollRdy l).1 → ∃ b, e = Event.read_rdy b := by
  intro l
  induction l with
  | nil => intro e he; simp [pollRdy] at he
  | cons b rest ih =>
    intro e he
    cases b with
    | false =>
      simp [pollRdy] at he
      rcases he with he | he
      · exact ⟨false, he⟩
      · exact ih e he
    | true =>
      simp [pollRdy] at he
      exact ⟨true, he⟩

/-- Every event produced by the flush poll loop is a read of the FIFO
status register. -/
theorem pollFlush_mem : ∀ (l : List FifoStatus) (e : Event),
    e ∈ (pollFlush l).1 → ∃ f, e = Event.read_fifo_status f := by
  intro l
  induction l using pollFlush.induct with
  | case1 => intro e he; simp [pollFlush] at he
  | case2 f1 h =>
    intro e he
    simp [pollFlush, h] at he
    exact ⟨f1, he⟩
  | case3 f1 h =>
    intro e he
    simp [pollFlush, h] at he
    exact ⟨f1, he⟩
  | case4 f1 f2 rest h1 h2 ih =>
    intro e he
    simp [pollFlush, h1, h2] at he
    rcases he with he | he | he
    · exact ⟨f1, he⟩
    · exact ⟨f2, he⟩
    · exact ih e he
  | case5 f1 f2 rest h1 h2 =>
    intro e he
    simp [pollFlush, h1, h2] at he
    rcases he with he | he
    · exact ⟨f1, he⟩
    · exact ⟨f2, he⟩
  | case6 f1 f2 rest h1 =>
    intro e he
    simp [pollFlush, h1] at he
    exact ⟨f1, he⟩

/-- A successful ready wait leaves the command register untouched and only
appends RDY read events to the trace. -/
theorem wait_until_ready_eq_some {m m' : Machine}
    (h : wait_until_ready m = some m') :
    m'.regs.command = m.regs.command ∧
    ∃ evs, (∀ c, Event.write_command c ∉ evs) ∧ m'.trace = m.trace ++ evs := by
  unfold wait_until_ready at h
  rcases hp : pollRdy m.oracle.rdy with ⟨evs, o⟩
  rw [hp] at h
  cases o with
  | none => simp at h
  | some rest =>
    simp only [Option.some.injEq] at h
    subst h
    refine ⟨rfl, evs, ?_, rfl⟩
    intro c hc
    obtain ⟨b, hb⟩ := pollRdy_mem m.oracle.rdy _ (by rw [hp]; exact hc)
    simp at hb

/-- A successful FIFO flush leaves the command register untouched and
appends no command write to the trace. -/
theorem flush_fifos_eq_some {m m' : Machine}
    (h : flush_fifos m = some m') :
    m'.regs.command = m.regs.command ∧
    ∃ evs, (∀ c, Event.write_command c ∉ evs) ∧ m'.trace = m.trace ++ evs := by
  unfold flush_fifos at h
  simp only [Option.bind_eq_bind', Option.bind_eq_some] at h
  obtain ⟨m1, hw, h⟩ := h
  obtain ⟨hc1, evs1, hno1, htr1⟩ := wait_until_ready_eq_some hw
  rcases hp : pollFlush (write_fifo_status m1
    { m1.regs.fifo_status with rx_fifo_flush := true, tx_fifo_flush := true }).oracle.fifo
    with ⟨evs2, o⟩
  rw [hp] at h
  cases o with
  | none => simp at h
  | some fr =>
    rcases fr with ⟨f, rest⟩
    simp only [Option.some.injEq] at h
    subst h
    constructor
    · simpa [write_fifo_status] using hc1
    · refine ⟨evs1 ++
        (Event.write_fifo_status
          { m1.regs.fifo_status with rx_fifo_flush := true, tx_fifo_flush := true } ::
          evs2), ?_, ?_⟩
      · intro c hc
        simp only [List.mem_append, List.mem_cons] at hc
        rcases hc with hc | hc | hc
        · exact hno1 c hc
        · simp at hc
        · obtain ⟨g, hg⟩ := pollFlush_mem _ _ (by rw [hp]; exact hc)
          simp at hg
      · simp [write_fifo_status, htr1]

/-- A read of the FIFO status register leaves the command register
untouched and appends one read event to the trace. -/
theorem read_fifo_status_eq_some {m m' : Machine} {f : FifoStatus}
    (h : read_fifo_status m = some (f, m')) :
    m'.regs.command = m.regs.command ∧
    m'.trace = m.trace ++ [Event.read_fifo_status f] := by
  unfold read_fifo_status at h
  rcases ho : m.oracle.fifo with _ | ⟨g, rest⟩ <;> rw [ho] at h
  · simp at h
  · simp only [Option.some.injEq, Prod.mk.injEq] at h
    obtain ⟨rfl, h⟩ := h
    subst h
    exact ⟨rfl, rfl⟩

/-- The drain loop leaves the command register untouched and appends only
RX FIFO read events to the trace. -/
theorem drain_cs : ∀ (n : Nat) (m : Machine),
    (drain n m).2.regs.command = m.regs.command ∧
    ∀ c, Event.write_command c ∈ (drain n m).2.trace →
      Event.write_command c ∈ m.trace := by
  intro n
  induction n with
  | zero => intro m; exact ⟨rfl, fun c hc => hc⟩
  | succ k ih =>
    intro m
    have hr : (read_rx_fifo m).2.regs.command = m.regs.command ∧
        ∀ c, Event.write_command c ∈ (read_rx_fifo m).2.trace →
          Event.write_command c ∈ m.trace := by
      unfold read_rx_fifo
      rcases m.regs.rx_fifo with _ | ⟨w, rest⟩ <;>
        exact ⟨rfl, fun c hc => by
          simp only [List.mem_append, List.mem_singleton] at hc
          rcases hc with hc | hc
          · exact hc
          · simp at hc⟩
    obtain ⟨ihc, ihm⟩ := ih (read_rx_fifo m).2
    refine ⟨?_, ?_⟩
    · show (drain k (read_rx_fifo m).2).2.regs.command = m.regs.command
      rw [ihc, hr.1]
    · intro c hc
      exact hr.2 c (ihm c hc)

/-- A successful pio_send_packet preserves the three chip-select fields of
the command register, and every command write it performs carries the
chip-select fields the command register had on entry. -/
theorem pio_send_packet_cs {m m' : Machine} {data : List Nat}
    {r : Except Unit Unit}
    (h : pio_send_packet m data = some (r, m')) :
    (m'.regs.command.cs_sw_hw = m.regs.command.cs_sw_hw ∧
      m'.regs.command.cs_sw_val = m.regs.command.cs_sw_val ∧
      m'.regs.command.cs_sel = m.regs.command.cs_sel) ∧
    ∀ c, Event.write_command c ∈ m'.trace →
      Event.write_command c ∈ m.trace ∨
        (c.cs_sw_hw = m.regs.command.cs_sw_hw ∧
          c.cs_sw_val = m.regs.command.cs_sw_val ∧
          c.cs_sel = m.regs.command.cs_sel) := by
  unfold pio_send_packet at h
  simp only [Option.bind_eq_bind', Option.bind_eq_some] at h
  obtain ⟨m1, hf, h⟩ := h
  obtain ⟨hc1, evs1, hno1, htr1⟩ := flush_fifos_eq_some hf
  obtain _ | ⟨b0, _ | ⟨b1, _ | ⟨b2, _ | ⟨b3, _ | ⟨b4, data⟩⟩⟩⟩⟩ := data
  · simp at h
  · simp at h
  · simp at h
  · simp at h
  · dsimp only at h
    simp only [Option.bind_eq_bind', Option.bind_eq_some] at h
    obtain ⟨m8, hw8, h⟩ := h
    obtain ⟨hc8, evs8, hno8, htr8⟩ := wait_until_ready_eq_some hw8
    obtain ⟨⟨f, m9⟩, hrf, h⟩ := h
    obtain ⟨hc9, htr9⟩ := read_fifo_status_eq_some hrf
    have hcmd9 : m9.regs.command.cs_sw_hw = m.regs.command.cs_sw_hw ∧
        m9.regs.command.cs_sw_val = m.regs.command.cs_sw_val ∧
        m9.regs.command.cs_sel = m.regs.command.cs_sel := by
      rw [hc9]
      simp [write_command]
      rw [hc8]
      simp [read_command, usleep, write_command, write_tx_fifo,
        write_transfer_status, write_dma_blk_size]
      rw [hc1]
      exact ⟨rfl, rfl, rfl⟩
    have htrm9 : ∀ c, Event.write_command c ∈ m9.trace →
        Event.write_command c ∈ m.trace ∨
          (c.cs_sw_hw = m.regs.command.cs_sw_hw ∧
            c.cs_sw_val = m.regs.command.cs_sw_val ∧
            c.cs_sel = m.regs.command.cs_sel) := by
      intro c hc
      rw [htr9] at hc
      simp only [write_command, read_command, usleep, write_tx_fifo,
        write_transfer_status, write_dma_blk_size] at hc htr8
      rw [htr8, htr1] at hc
      simp [List.append_assoc, Event.write_command.injEq] at hc
      rcases hc with hc | hc | hc | hc | hc | hc | hc
      · exact Or.inl hc
      · exact absurd hc (hno1 c)
      · subst hc
        refine Or.inr ?_
        rw [hc1]
        exact ⟨rfl, rfl, rfl⟩
      · subst hc
        refine Or.inr ?_
        rw [hc1]
        exact ⟨rfl, rfl, rfl⟩
      · subst hc
        refine Or.inr ?_
        rw [hc1]
        exact ⟨rfl, rfl, rfl⟩
      · exact absurd hc (hno8 c)
      · subst hc
        refine Or.inr ?_
        have hm8 := hc8
        simp only [read_command, usleep, write_command, write_tx_fifo,
          write_transfer_status, write_dma_blk_size] at hm8
        simp [hm8, hc1]
    by_cases he : f.err = true
    · rw [if_pos he] at h
      simp only [Option.some.injEq, Prod.mk.injEq] at h
      obtain ⟨hr, hm'⟩ := h
      subst hm'
      refine ⟨?_, ?_⟩
      · simpa [clear_fifo_status, write_fifo_status] using hcmd9
      · intro c hc
        simp only [clear_fifo_status, write_fifo_status, List.mem_append,
          List.mem_singleton] at hc
        rcases hc with hc | hc
        · exact htrm9 c hc
        · simp at hc
    · rw [if_neg he] at h
      simp only [Option.some.injEq, Prod.mk.injEq] at h
      obtain ⟨hr, hm'⟩ := h
      subst hm'
      exact ⟨hcmd9, htrm9⟩
  · simp at h

/-- A successful pio_receive_packet preserves the three chip-select fields
of the command register, and every command write it performs carries the
chip-select fields the command register had on entry. -/
theorem pio_receive_packet_cs {m m' : Machine} {data out : List Nat}
    {r : Except Unit Unit}
    (h : pio_receive_packet m data = some (r, out, m')) :
    (m'.regs.command.cs_sw_hw = m.regs.command.cs_sw_hw ∧
      m'.regs.command.cs_sw_val = m.regs.command.cs_sw_val ∧
      m'.regs.command.cs_sel = m.regs.command.cs_sel) ∧
    ∀ c, Event.write_command c ∈ m'.trace →
      Event.write_command c ∈ m.trace ∨
        (c.cs_sw_hw = m.regs.command.cs_sw_hw ∧
          c.cs_sw_val = m.regs.command.cs_sw_val ∧
          c.cs_sel = m.regs.command.cs_sel) := by
  unfold pio_receive_packet at h
  simp only [Option.bind_eq_bind', Option.bind_eq_some] at h
  obtain ⟨m1, hf, h⟩ := h
  obtain ⟨hc1, evs1, hno1, htr1⟩ := flush_fifos_eq_some hf
  obtain ⟨m8, hw8, h⟩ := h
  obtain ⟨hc8, evs8, hno8, htr8⟩ := wait_until_ready_eq_some hw8
  obtain ⟨⟨f, m9⟩, hrf, h⟩ := h
  obtain ⟨hc9, htr9⟩ := read_fifo_status_eq_some hrf
  have hcmd9 : m9.regs.command.cs_sw_hw = m.regs.command.cs_sw_hw ∧
      m9.regs.command.cs_sw_val = m.regs.command.cs_sw_val ∧
      m9.regs.command.cs_sel = m.regs.command.cs_sel := by
    rw [hc9]
    simp [write_command]
    rw [hc8]
    simp [read_command, usleep, write_command, write_transfer_status,
      write_dma_blk_size]
    rw [hc1]
    exact ⟨rfl, rfl, rfl⟩
  have htrm9 : ∀ c, Event.write_command c ∈ m9.trace →
      Event.write_command c ∈ m.trace ∨
        (c.cs_sw_hw = m.regs.command.cs_sw_hw ∧
          c.cs_sw_val = m.regs.command.cs_sw_val ∧
          c.cs_sel = m.regs.command.cs_sel) := by
    intro c hc
    rw [htr9] at hc
    simp only [write_command, read_command, usleep, write_transfer_status,
      write_dma_blk_size] at hc htr8
    rw [htr8, htr1] at hc
    simp [List.append_assoc, Event.write_command.injEq] at hc
    rcases hc with hc | hc | hc | hc | hc | hc | hc
    · exact Or.inl hc
    · exact absurd hc (hno1 c)
    · subst hc
      refine Or.inr ?_
      rw [hc1]
      exact ⟨rfl, rfl, rfl⟩
    · subst hc
      refine Or.inr ?_
      rw [hc1]
      exact ⟨rfl, rfl, rfl⟩
    · subst hc
      refine Or.inr ?_
      rw [hc1]
      exact ⟨rfl, rfl, rfl⟩
    · exact absurd hc (hno8 c)
    · subst hc
      refine Or.inr ?_
      have hm8 := hc8
      simp only [read_command, usleep, write_command, write_transfer_status,
        write_dma_blk_size] at hm8
      simp [hm8, hc1]
  by_cases he : f.err = true
  · rw [if_pos he] at h
    simp only [Option.some.injEq, Prod.mk.injEq] at h
    obtain ⟨hr, hout, hm'⟩ := h
    subst hm'
    refine ⟨?_, ?_⟩
    · simpa [clear_fifo_status, write_fifo_status] using hcmd9
    · intro c hc
      simp only [clear_fifo_status, write_fifo_status, List.mem_append,
        List.mem_singleton] at hc
      rcases hc with hc | hc
      · exact htrm9 c hc
      · simp at hc
  · rw [if_neg he] at h
    simp only [Option.some.injEq, Prod.mk.injEq] at h
    obtain ⟨hr, hout, hm'⟩ := h
    subst hm'
    obtain ⟨hdc, hdm⟩ := drain_cs data.length m9
    refine ⟨?_, ?_⟩
    · rw [hdc]
      exact hcmd9
    · intro c hc
      exact htrm9 c (hdm c hc)

/-- C10: pio_send_packet, pio_receive_packet and flush_fifos never write
the chip-select fields of the command register: flush_fifos performs no
command write at all and leaves the command register untouched, and the
two transfer primitives change only non-chip-select fields, so every
command write they perform carries the chip-select configuration the
register had on entry and the final command register keeps the chip-select
configuration established before the call (for any machine and any
terminating run). -/
theorem spi_transfers_preserve_chip_select :
    ∀ (m m' : Machine),
      (flush_fifos m = some m' →
        m'.regs.command = m.regs.command ∧
        ∀ c, Event.write_command c ∈ m'.trace →
          Event.write_command c ∈ m.trace) ∧
      (∀ (data : List Nat) (r : Except Unit Unit),
        pio_send_packet m data = some (r, m') →
          (m'.regs.command.cs_sw_hw = m.regs.command.cs_sw_hw ∧
            m'.regs.command.cs_sw_val = m.regs.command.cs_sw_val ∧
            m'.regs.command.cs_sel = m.regs.command.cs_sel) ∧
          ∀ c, Event.write_command c ∈ m'.trace →
            Event.write_command c ∈ m.trace ∨
              (c.cs_sw_hw = m.regs.command.cs_sw_hw ∧
                c.cs_sw_val = m.regs.command.cs_sw_val ∧
                c.cs_sel = m.regs.command.cs_sel)) ∧
      (∀ (data out : List Nat) (r : Except Unit Unit),
        pio_receive_packet m data = some (r, out, m') →
          (m'.regs.command.cs_sw_hw = m.regs.command.cs_sw_hw ∧
            m'.regs.command.cs_sw_val = m.regs.command.cs_sw_val ∧
            m'.regs.command.cs_sel = m.regs.command.cs_sel) ∧
          ∀ c, Event.write_command c ∈ m'.trace →
            Event.write_command c ∈ m.trace ∨
              (c.cs_sw_hw = m.regs.command.cs_sw_hw ∧
                c.cs_sw_val = m.regs.command.cs_sw_val ∧
                c.cs_sel = m.regs.command.cs_sel)) := by
  intro m m'
  refine ⟨?_, ?_, ?_⟩
  · intro h
    obtain ⟨hc, evs, hno, htr⟩ := flush_fifos_eq_some h
    refine ⟨hc, ?_⟩
    intro c hcmem
    rw [htr] at hcmem
    rcases List.mem_append.mp hcmem with h1 | h2
    · exact h1
    · exact absurd h2 (hno c)
  · intro data r h
    exact pio_send_packet_cs h
  · intro data out r h
    exact pio_receive_packet_cs h

/-- Witness for C10 at three concrete terminating runs: a flush, a send of
4 bytes and a receive of 4 bytes. -/
theorem spi_transfers_preserve_chip_select_witness :
    ((flush_fifos ⟨regs0, ⟨[true], [status_none]⟩, []⟩).getD
        ⟨regs0, ⟨[true], [status_none]⟩, []⟩).regs.command =
      (⟨regs0, ⟨[true], [status_none]⟩, []⟩ : Machine).regs.command ∧
    ((pio_send_packet ⟨regs0, ⟨[true, true], [status_none, status_none]⟩, []⟩
          [1, 2, 3, 4]).getD
        (Except.ok (), ⟨regs0, ⟨[true, true], [status_none, status_none]⟩, []⟩)).2.regs.command.cs_sel =
      (⟨regs0, ⟨[true, true], [status_none, status_none]⟩, []⟩ : Machine).regs.command.cs_sel ∧
    ((pio_receive_packet
          ⟨{ regs0 with rx_fifo := [1, 2, 3, 4] },
            ⟨[true, true], [status_none, status_none]⟩, []⟩
          [0, 0, 0, 0]).getD
        (Except.ok (), [0, 0, 0, 0],
          ⟨{ regs0 with rx_fifo := [1, 2, 3, 4] },
            ⟨[true, true], [status_none, status_none]⟩, []⟩)).2.2.regs.command.cs_sw_val =
      (⟨{ regs0 with rx_fifo := [1, 2, 3, 4] },
          ⟨[true, true], [status_none, status_none]⟩, []⟩ : Machine).regs.command.cs_sw_val :=
  ⟨((spi_transfers_preserve_chip_select _ _).1 (by decide)).1,
    (((spi_transfers_preserve_chip_select _ _).2.1 [1, 2, 3, 4]
      (Except.ok ()) (by decide)).1).2.2,
    (((spi_transfers_preserve_chip_select _ _).2.2 [0, 0, 0, 0] [1, 2, 3, 4]
      (Except.ok ()) (by decide)).1).2.1⟩

/-- Witness for C5 at a concrete 2-byte receive from a FIFO holding the
words 65 and 834 (the second word exercises the low-byte truncation). -/
theorem spi_receive_drains_fifo_in_order_witness :
    Option.map (fun p => (p.1, p.2.1, p.2.2.trace))
      (pio_receive_packet
        ⟨{ regs0 with rx_fifo := [65, 834] },
          ⟨List.replicate 0 false ++ true ::
            (List.replicate 0 false ++ [true]),
            [status_none, status_none]⟩, []⟩ [0, 0]) =
    some
      (Except.ok (),
        (({ regs0 with rx_fifo := [65, 834] } : Registers).rx_fifo.take
          ([0, 0] : List Nat).length).map (fun w => w % 2 ^ 8),
        List.replicate 0 (Event.read_rdy false) ++
        Event.read_rdy true ::
        Event.write_fifo_status
          { ({ regs0 with rx_fifo := [65, 834] } : Registers).fifo_status with
            rx_fifo_flush := true, tx_fifo_flush := true } ::
        Event.read_fifo_status status_none ::
        Event.write_command
          { ({ regs0 with rx_fifo := [65, 834] } : Registers).command with
            packed := false, bit_len := 7 } ::
        Event.write_dma_blk_size (([0, 0] : List Nat).length - 1) ::
        Event.write_transfer_status false ::
        Event.write_command
          { ({ regs0 with rx_fifo := [65, 834] } : Registers).command with
            packed := false, bit_len := 7, rx_en := true } ::
        Event.usleep 2 ::
        Event.write_command
          { ({ regs0 with rx_fifo := [65, 834] } : Registers).command with
            packed := false, bit_len := 7, rx_en := true, pio := true } ::
        Event.usleep 1 ::
        Event.read_command
          { ({ regs0 with rx_fifo := [65, 834] } : Registers).command with
            packed := false, bit_len := 7, rx_en := true, pio := true } ::
        (List.replicate 0 (Event.read_rdy false) ++
          Event.read_rdy true ::
          Event.write_command
            { ({ regs0 with rx_fifo := [65, 834] } : Registers).command with
              packed := false, bit_len := 7, rx_en := false, pio := true } ::
          Event.read_fifo_status status_none ::
          (({ regs0 with rx_fifo := [65, 834] } : Registers).rx_fifo.take
            ([0, 0] : List Nat).length).map Event.read_rx_fifo)) :=
  spi_receive_drains_fifo_in_order { regs0 with rx_fifo := [65, 834] } [0, 0] 0 0
    (by decide) (by decide)

/-- Witness for C9 at a concrete 1-byte receive whose error flag read comes
back set. -/
theorem spi_receive_error_leaves_buffer_untouched_witness :
    Option.map (fun p => (p.1, p.2.1, p.2.2.trace))
      (pio_receive_packet
        ⟨regs0,
          ⟨List.replicate 0 false ++ true ::
            (List.replicate 0 false ++ [true]),
            [status_none, status_err true]⟩, []⟩ [7]) =
    some
      (Except.error (),
        [7],
        List.replicate 0 (Event.read_rdy false) ++
        Event.read_rdy true ::
        Event.write_fifo_status
          { regs0.fifo_status with rx_fifo_flush := true, tx_fifo_flush := true } ::
        Event.read_fifo_status status_none ::
        Event.write_command
          { regs0.command with packed := false, bit_len := 7 } ::
        Event.write_dma_blk_size (([7] : List Nat).length - 1) ::
        Event.write_transfer_status false ::
        Event.write_command
          { regs0.command with packed := false, bit_len := 7, rx_en := true } ::
        Event.usleep 2 ::
        Event.write_command
          { regs0.command with
            packed := false, bit_len := 7, rx_en := true, pio := true } ::
        Event.usleep 1 ::
        Event.read_command
          { regs0.command with
            packed := false, bit_len := 7, rx_en := true, pio := true } ::
        (List.replicate 0 (Event.read_rdy false) ++
          Event.read_rdy true ::
          Event.write_command
            { regs0.command with
              packed := false, bit_len := 7, rx_en := false, pio := true } ::
          Event.read_fifo_status (status_err true) ::
          [Event.write_fifo_status
            { status_err true with
              err := false, tx_fifo_ovf := false, tx_fifo_unr := false,
              rx_fifo_ovf := false, rx_fifo_unr := false }])) :=
  spi_receive_error_leaves_buffer_untouched regs0 [7] 0 0 (status_err true)
    (by decide) (by decide)

/-- Witness for C6 at the buffer 1, 2, 3, 4. -/
theorem spi_le_pack_unpack_roundtrip_witness :
    Option.map (fun p => (p.1, p.2.regs.tx_fifo))
      (pio_send_packet ⟨regs0, ⟨[true, true], [status_none, status_none]⟩, []⟩
        [1, 2, 3, 4]) =
      some (Except.ok (), [u32_from_le_bytes 1 2 3 4]) ∧
    Option.map (fun p => (p.1, p.2.1))
      (pio_receive_packet
        ⟨{ regs0 with
            rx_fifo := [u32_from_le_bytes 1 2 3 4 % 2 ^ 8,
              u32_from_le_bytes 1 2 3 4 / 2 ^ 8 % 2 ^ 8,
              u32_from_le_bytes 1 2 3 4 / 2 ^ 16 % 2 ^ 8,
              u32_from_le_bytes 1 2 3 4 / 2 ^ 24 % 2 ^ 8] },
          ⟨[true, true], [status_none, status_none]⟩, []⟩
        [0, 0, 0, 0]) =
      some (Except.ok (), [1, 2, 3, 4]) :=
  spi_le_pack_unpack_roundtrip 1 2 3 4 (by decide) (by decide) (by decide) (by decide)

/-- Witness for C4 at a concrete erroring send of the buffer 1, 2, 3, 4
and a concrete erroring receive into a 1-byte buffer. -/
theorem spi_error_path_clears_status_and_enable_witness :
    (Option.map
        (fun p => (p.1, p.2.regs.command.tx_en, p.2.regs.fifo_status, p.2.trace))
        (pio_send_packet
          ⟨regs0,
            ⟨List.replicate 0 false ++ true ::
              (List.replicate 0 false ++ [true]),
              [status_none, status_err true]⟩, []⟩ [1, 2, 3, 4]) =
      some
        (Except.error (), false,
          { status_err true with
            err := false, tx_fifo_ovf := false, tx_fifo_unr := false,
            rx_fifo_ovf := false, rx_fifo_unr := false },
          List.replicate 0 (Event.read_rdy false) ++
          Event.read_rdy true ::
          Event.write_fifo_status
            { regs0.fifo_status with rx_fifo_flush := true, tx_fifo_flush := true } ::
          Event.read_fifo_status status_none ::
          Event.write_command
            { regs0.command with packed := false, bit_len := 7 } ::
          Event.write_dma_blk_size 3 ::
          Event.write_transfer_status false ::
          Event.write_command
            { regs0.command with packed := false, bit_len := 7, tx_en := true } ::
          Event.write_tx_fifo (u32_from_le_bytes 1 2 3 4) ::
          Event.usleep 2 ::
          Event.write_command
            { regs0.command with
              packed := false, bit_len := 7, tx_en := true, pio := true } ::
          Event.usleep 1 ::
          Event.read_command
            { regs0.command with
              packed := false, bit_len := 7, tx_en := true, pio := true } ::
          (List.replicate 0 (Event.read_rdy false) ++
            Event.read_rdy true ::
            Event.write_command
              { regs0.command with
                packed := false, bit_len := 7, tx_en := false, pio := true } ::
            Event.read_fifo_status (status_err true) ::
            [Event.write_fifo_status
              { status_err true with
                err := false, tx_fifo_ovf := false, tx_fifo_unr := false,
                rx_fifo_ovf := false, rx_fifo_unr := false }]))) ∧
    (Option.map
        (fun p =>
          (p.1, p.2.1, p.2.2.regs.command.rx_en, p.2.2.regs.fifo_status,
            p.2.2.trace))
        (pio_receive_packet
          ⟨regs0,
            ⟨List.replicate 0 false ++ true ::
              (List.replicate 0 false ++ [true]),
              [status_none, status_err true]⟩, []⟩ [9]) =
      some
        (Except.error (), [9], false,
          { status_err true with
            err := false, tx_fifo_ovf := false, tx_fifo_unr := false,
            rx_fifo_ovf := false, rx_fifo_unr := false },
          List.replicate 0 (Event.read_rdy false) ++
          Event.read_rdy true ::
          Event.write_fifo_status
            { regs0.fifo_status with rx_fifo_flush := true, tx_fifo_flush := true } ::
          Event.read_fifo_status status_none ::
          Event.write_command
            { regs0.command with packed := false, bit_len := 7 } ::
          Event.write_dma_blk_size (([9] : List Nat).length - 1) ::
          Event.write_transfer_status false ::
          Event.write_command
            { regs0.command with packed := false, bit_len := 7, rx_en := true } ::
          Event.usleep 2 ::
          Event.write_command
            { regs0.command with
              packed := false, bit_len := 7, rx_en := true, pio := true } ::
          Event.usleep 1 ::
          Event.read_command
            { regs0.command with
              packed := false, bit_len := 7, rx_en := true, pio := true } ::
          (List.replicate 0 (Event.read_rdy false) ++
            Event.read_rdy true ::
            Event.write_command
              { regs0.command with
                packed := false, bit_len := 7, rx_en := false, pio := true } ::
            Event.read_fifo_status (status_err true) ::
            [Event.write_fifo_status
              { status_err true with
                err := false, tx_fifo_ovf := false, tx_fifo_unr := false,
                rx_fifo_ovf := false, rx_fifo_unr := false }]))) :=
  spi_error_path_clears_status_and_enable regs0 1 2 3 4 [9] 0 0 0 0
    (status_err true) (status_err true) (by decide) (by decide)
